import Mathlib

/-!
Shallow embedding of `src/agent.py`, a collection of six example agent
functions built on a chat-completion API.  The external completion API is
modelled as a function parameter `complete : List Message → Response`;
pure helpers are translated directly from the Python source.
-/

set_option maxHeartbeats 1000000

/-- Boolean substring test on character lists: models the Python
`needle in hay` containment test on strings. -/
def containsSub (needle : List Char) : List Char → Bool
  | [] => needle.isPrefixOf []
  | c :: t => needle.isPrefixOf (c :: t) || containsSub needle t

/-- Accumulator worker for `splitWs`: `acc` holds the characters of the
token currently being read, in reverse order. -/
def splitWsAux : List Char → List Char → List (List Char)
  | [], acc => if acc.isEmpty then [] else [acc.reverse]
  | c :: rest, acc =>
    if c.isWhitespace then
      if acc.isEmpty then splitWsAux rest []
      else acc.reverse :: splitWsAux rest []
    else splitWsAux rest (c :: acc)

/-- Whitespace split of a character list: models the Python `str.split()`
with no argument, which splits on runs of whitespace and produces no empty
tokens. -/
def splitWs (s : List Char) : List (List Char) :=
  splitWsAux s []

/-- Lower-casing of a string, character by character: models the Python
`str.lower()` call used by the retrieval step. -/
def lowerData (s : String) : List Char := s.data.map Char.toLower

/-- From `retrieve_context` in `rag_agent` (src/agent.py lines 165-168):
a document is relevant when some whitespace-split token of the query is a
case-insensitive substring of the document. -/
def docMatches (query doc : String) : Bool :=
  (splitWs query.data).any (fun keyword =>
    containsSub (keyword.map Char.toLower) (lowerData doc))

/-- From `retrieve_context` in `rag_agent` (src/agent.py lines 163-169):
keep the documents that match and truncate to the first three. -/
def retrieve_context (query : String) (kb : List String) : List String :=
  (kb.filter (fun doc => docMatches query doc)).take 3

/-- Separator join: models the Python `sep.join(docs)` used to build the
context string. -/
def joinSep (sep : String) : List String → String
  | [] => ""
  | [d] => d
  | d :: rest => d ++ sep ++ joinSep sep rest

/-- The context string produced by the retrieval step of `rag_agent`
(src/agent.py line 169): the selected documents joined by a blank line. -/
def rag_context (query : String) (kb : List String) : String :=
  joinSep "\n\n" (retrieve_context query kb)

/-- The three sample knowledge-base documents (src/agent.py lines 373-377). -/
def kb_sample : List String :=
  ["Our company was founded in 2020.",
   "We offer cloud services and AI solutions.",
   "Our headquarters is in San Francisco."]

/-- Splitting an all-whitespace character list yields no tokens. -/
theorem splitWsAux_all_whitespace :
    ∀ s : List Char, (∀ c ∈ s, c.isWhitespace = true) → splitWsAux s [] = [] := by
  intro s
  induction s with
  | nil => intro _; rfl
  | cons c rest ih =>
    intro h
    have hc : c.isWhitespace = true := h c (List.mem_cons_self c rest)
    simp only [splitWsAux, hc, if_pos, List.isEmpty_nil, if_true]
    exact ih (fun x hx => h x (List.mem_cons_of_mem c hx))

/-- Claim C1 (counterexample): with query "a" and a knowledge base of four
documents that each contain the token "a", the fourth matching document is
not selected, so "selected if and only if some token matches" fails. -/
theorem retrieve_context_iff_counterexample :
    docMatches "a" "a4" = true
      ∧ "a4" ∉ retrieve_context "a" ["a1", "a2", "a3", "a4"] := by
  decide

/-- Claim C1 (amended): the retrieval step selects at most three documents,
every selected document has a query token as a case-insensitive substring,
and when at most three documents of the knowledge base match, a document is
selected if and only if some query token matches it. -/
theorem retrieve_context_selection (q : String) (kb : List String) :
    (retrieve_context q kb).length ≤ 3
      ∧ (∀ d ∈ retrieve_context q kb, docMatches q d = true)
      ∧ ((kb.filter (fun doc => docMatches q doc)).length ≤ 3 →
          ∀ d ∈ kb, (d ∈ retrieve_context q kb ↔ docMatches q d = true)) := by
  refine ⟨?_, ?_, ?_⟩
  · simp only [retrieve_context, List.length_take]
    omega
  · intro d hd
    have hmem : d ∈ kb.filter (fun doc => docMatches q doc) :=
      (List.take_sublist 3 _).subset hd
    exact (List.mem_filter.mp hmem).2
  · intro hlen d hd
    rw [retrieve_context, List.take_of_length_le hlen]
    simp [List.mem_filter, hd]

/-- Witness for the amended claim C1 at a concrete query and knowledge
base. -/
theorem retrieve_context_selection_witness :
    ("x a" ∈ retrieve_context "a" ["x a"] ↔ docMatches "a" "x a" = true)
      ∧ (retrieve_context "a" ["x a"]).length ≤ 3 :=
  ⟨(retrieve_context_selection "a" ["x a"]).2.2 (by decide) "x a" (by decide),
   (retrieve_context_selection "a" ["x a"]).1⟩

/-- Claim C8: on the sample query, the retrieval step selects the founding
document and does not select the headquarters document. -/
theorem rag_sample_query_selection :
    "Our company was founded in 2020."
        ∈ retrieve_context "When was the company founded?" kb_sample
      ∧ "Our headquarters is in San Francisco."
        ∉ retrieve_context "When was the company founded?" kb_sample := by
  decide

/-- Claim C9: a query that is empty or all whitespace yields no tokens, so
no document is selected and the context string is empty. -/
theorem retrieve_context_whitespace_query (q : String) (kb : List String)
    (hws : ∀ c ∈ q.data, c.isWhitespace = true) :
    retrieve_context q kb = [] ∧ rag_context q kb = "" := by
  have hsplit : splitWs q.data = [] := splitWsAux_all_whitespace q.data hws
  have hm : ∀ d : String, docMatches q d = false := by
    intro d
    simp [docMatches, hsplit]
  have hf : kb.filter (fun doc => docMatches q doc) = [] := by
    rw [List.filter_eq_nil_iff]
    intro a _
    simp [hm a]
  refine ⟨?_, ?_⟩
  · simp [retrieve_context, hf]
  · simp [rag_context, retrieve_context, hf, joinSep]

/-- Witness for claim C9 at a concrete whitespace query. -/
theorem retrieve_context_whitespace_query_witness :
    retrieve_context " " ["abc"] = [] ∧ rag_context " " ["abc"] = "" :=
  retrieve_context_whitespace_query " " ["abc"] (by decide)

/-- Role tag of a conversation turn. -/
inductive Role where
  | user
  | assistant
deriving DecidableEq, Repr

/-- Tool arguments: a JSON-object-shaped record, modelled as an
association list from argument name to string value. -/
abbrev ToolInput : Type := List (String × String)

/-- A content block of a model response: either a text block or a tool-use
block carrying a tool name, its input and an identifier. -/
inductive Block where
  | text (s : String)
  | toolUse (name : String) (input : ToolInput) (id : String)
deriving DecidableEq

/-- A tool-result record, keyed by the identifier of the tool-use block it
answers. -/
structure ToolResult where
  tool_use_id : String
  content : String
deriving DecidableEq

/-- The content of a conversation turn: plain text, a list of response
blocks, or a list of tool results. -/
inductive Content where
  | str (s : String)
  | blocks (bs : List Block)
  | results (rs : List ToolResult)
deriving DecidableEq

/-- One turn of a conversation history. -/
structure Message where
  role : Role
  content : Content
deriving DecidableEq

/-- A completion-API response: an ordered list of content blocks and a stop
reason. -/
structure Response where
  content : List Block
  stop_reason : String
deriving DecidableEq

/-- The `.text` attribute access on a content block: a text block carries
text, a tool-use block does not (an attribute error in the source). -/
def blockText : Block → Option String
  | Block.text s => some s
  | Block.toolUse _ _ _ => none

/-- From `basic_agent` (src/agent.py lines 26-53): append the user turn,
issue one completion request, append the first returned text block as an
assistant turn, and return the text with the updated history.  A response
whose first content block is missing or has no text makes the source raise,
modelled as `none`. -/
def basic_agent (complete : List Message → Response) (user_message : String)
    (conversation_history : List Message) : Option (String × List Message) :=
  let h1 := conversation_history ++ [⟨Role.user, Content.str user_message⟩]
  match (complete h1).content with
  | [] => none
  | b :: _ =>
    match blockText b with
    | none => none
    | some t => some (t, h1 ++ [⟨Role.assistant, Content.str t⟩])

/-- The `conversation_history=None` default of `basic_agent`: calling with
no history starts from the empty history. -/
def basic_agent_default (complete : List Message → Response)
    (user_message : String) : Option (String × List Message) :=
  basic_agent complete user_message []

/-- A completion oracle that always answers with a single text block. -/
def constTextOracle : List Message → Response :=
  fun _ => ⟨[Block.text "ok"], "end_turn"⟩

/-- Claim C3: whenever `basic_agent` returns, the returned history is the
input history extended by exactly one user record and then one assistant
record, its length is the input length plus two, and the input history is a
prefix of it. -/
theorem basic_agent_appends (complete : List Message → Response)
    (user_message : String) (h : List Message) (t : String)
    (h2 : List Message)
    (hr : basic_agent complete user_message h = some (t, h2)) :
    h2 = h ++ [⟨Role.user, Content.str user_message⟩,
               ⟨Role.assistant, Content.str t⟩]
      ∧ h2.length = h.length + 2 ∧ h <+: h2 := by
  simp only [basic_agent] at hr
  split at hr
  · exact absurd hr (by simp)
  · rename_i b rest hb
    split at hr
    · exact absurd hr (by simp)
    · rename_i t0 ht0
      have hpair := Option.some.inj hr
      have hh2 : h2 = (h ++ [⟨Role.user, Content.str user_message⟩])
          ++ [⟨Role.assistant, Content.str t⟩] := by
        have := congrArg Prod.snd hpair
        simp at this
        rw [← this]
        have ht : t0 = t := by
          have := congrArg Prod.fst hpair
          simpa using this
        rw [ht]
        simp
      refine ⟨?_, ?_, ?_⟩
      · rw [hh2]
        simp
      · rw [hh2]
        simp
      · rw [hh2]
        exact ⟨[⟨Role.user, Content.str user_message⟩,
                ⟨Role.assistant, Content.str t⟩], by simp⟩

/-- Witness for claim C3: a concrete call on the empty history. -/
theorem basic_agent_appends_witness :
    ([⟨Role.user, Content.str "hi"⟩, ⟨Role.assistant, Content.str "ok"⟩]
        : List Message)
      = [] ++ [⟨Role.user, Content.str "hi"⟩, ⟨Role.assistant, Content.str "ok"⟩]
    ∧ ([⟨Role.user, Content.str "hi"⟩, ⟨Role.assistant, Content.str "ok"⟩]
        : List Message).length = ([] : List Message).length + 2
    ∧ ([] : List Message)
        <+: [⟨Role.user, Content.str "hi"⟩, ⟨Role.assistant, Content.str "ok"⟩] :=
  basic_agent_appends constTextOracle "hi" [] "ok" _ rfl

/-- Tokens of an integer arithmetic expression. -/
inductive Tok where
  | num (n : Nat)
  | plus
  | minus
  | star
  | lparen
  | rparen
deriving DecidableEq, Repr

/-- Numeric value of a list of decimal digit characters. -/
def digitsVal (ds : List Char) : Nat :=
  ds.foldl (fun acc c => 10 * acc + (c.toNat - Char.toNat '0')) 0

/-- Fuel-indexed tokenizer for integer arithmetic expressions; any
character outside digits, whitespace and `+ - * ( )` is a lexical error.
Fuel `s.length + 1` always suffices since every step consumes at least one
character. -/
def tokenize : Nat → List Char → Option (List Tok)
  | 0, _ => none
  | _ + 1, [] => some []
  | f + 1, c :: rest =>
    if c.isWhitespace then tokenize f rest
    else if c.isDigit then
      (tokenize f (rest.dropWhile Char.isDigit)).map
        (fun ts => Tok.num (digitsVal (c :: rest.takeWhile Char.isDigit)) :: ts)
    else if c = '+' then (tokenize f rest).map (fun ts => Tok.plus :: ts)
    else if c = '-' then (tokenize f rest).map (fun ts => Tok.minus :: ts)
    else if c = '*' then (tokenize f rest).map (fun ts => Tok.star :: ts)
    else if c = '(' then (tokenize f rest).map (fun ts => Tok.lparen :: ts)
    else if c = ')' then (tokenize f rest).map (fun ts => Tok.rparen :: ts)
    else none

mutual

/-- Fuel-indexed parser for sums: a term followed by `+`/`-` chains. -/
def parseExpr : Nat → List Tok → Option (Int × List Tok)
  | 0, _ => none
  | f + 1, ts =>
    match parseTerm f ts with
    | none => none
    | some (v, ts1) => parseExprLoop f v ts1

/-- Left-associative accumulation of `+` and `-` at sum level. -/
def parseExprLoop : Nat → Int → List Tok → Option (Int × List Tok)
  | 0, _, _ => none
  | f + 1, acc, Tok.plus :: rest =>
    match parseTerm f rest with
    | none => none
    | some (v, ts2) => parseExprLoop f (acc + v) ts2
  | f + 1, acc, Tok.minus :: rest =>
    match parseTerm f rest with
    | none => none
    | some (v, ts2) => parseExprLoop f (acc - v) ts2
  | _ + 1, acc, ts => some (acc, ts)

/-- Fuel-indexed parser for products: a factor followed by `*` chains. -/
def parseTerm : Nat → List Tok → Option (Int × List Tok)
  | 0, _ => none
  | f + 1, ts =>
    match parseFactor f ts with
    | none => none
    | some (v, ts1) => parseTermLoop f v ts1

/-- Left-associative accumulation of `*` at product level. -/
def parseTermLoop : Nat → Int → List Tok → Option (Int × List Tok)
  | 0, _, _ => none
  | f + 1, acc, Tok.star :: rest =>
    match parseFactor f rest with
    | none => none
    | some (v, ts2) => parseTermLoop f (acc * v) ts2
  | _ + 1, acc, ts => some (acc, ts)

/-- Fuel-indexed parser for factors: an integer literal, a unary minus, or
a parenthesised sum. -/
def parseFactor : Nat → List Tok → Option (Int × List Tok)
  | 0, _ => none
  | _ + 1, Tok.num n :: rest => some ((n : Int), rest)
  | f + 1, Tok.minus :: rest =>
    (parseFactor f rest).map (fun p => (-p.1, p.2))
  | f + 1, Tok.lparen :: rest =>
    match parseExpr f rest with
    | none => none
    | some (v, Tok.rparen :: ts2) => some (v, ts2)
    | some _ => none
  | _ + 1, _ => none

end

/-- Model of the Python builtin `eval` restricted to integer arithmetic
expressions (literals, unary minus, `+ - *`, parentheses, whitespace):
`none` models a raised exception.  The fuel bounds are generous enough for
every token list the tokenizer can produce. -/
def evalArith (s : String) : Option Int :=
  match tokenize (s.data.length + 1) s.data with
  | none => none
  | some ts =>
    match parseExpr (4 * ts.length + 4) ts with
    | some (v, []) => some v
    | _ => none

/-- From the `calculator` tool of `tool_using_agent` (src/agent.py lines
100-104): `str(eval(expression))`, with every evaluation error swallowed
into the fixed string "Invalid expression". -/
def calculator (expression : String) : String :=
  match evalArith expression with
  | some v => toString v
  | none => "Invalid expression"

/-- Claim C5: the calculator returns the stringified evaluation result on a
well-formed arithmetic expression (in particular "345" on "15 * 23"),
returns the literal "Invalid expression" exactly when evaluation fails, and
always returns a string rather than propagating an exception. -/
theorem calculator_spec :
    (∀ e v, evalArith e = some v → calculator e = toString v)
      ∧ calculator "15 * 23" = "345"
      ∧ (∀ e, evalArith e = none → calculator e = "Invalid expression")
      ∧ (∀ e, (∃ v : Int, calculator e = toString v)
          ∨ calculator e = "Invalid expression") := by
  refine ⟨?_, by decide, ?_, ?_⟩
  · intro e v hv
    simp [calculator, hv]
  · intro e hv
    simp [calculator, hv]
  · intro e
    match hv : evalArith e with
    | some v => exact Or.inl ⟨v, by simp [calculator, hv]⟩
    | none => exact Or.inr (by simp [calculator, hv])

/-- Witness for claim C5 at a well-formed and a malformed expression. -/
theorem calculator_spec_witness :
    calculator "15 * 23" = toString (345 : Int)
      ∧ calculator "abc" = "Invalid expression" :=
  ⟨calculator_spec.1 "15 * 23" 345 (by decide),
   calculator_spec.2.2.1 "abc" (by decide)⟩

/-- Keyword-argument lookup in a tool input record: models binding the
`**tool_input` keyword arguments to a named parameter, `none` when the
argument is missing (a type error in the source). -/
def lookupArg (key : String) (inp : ToolInput) : Option String :=
  (inp.find? (fun p => p.1 == key)).map (fun p => p.2)

/-- The `get_weather` tool implementation of `tool_using_agent`
(src/agent.py lines 96-98): a hardcoded weather string. -/
def get_weather_impl (inp : ToolInput) : Option String :=
  (lookupArg "location" inp).map
    (fun location => "The weather in " ++ location ++ " is sunny, 72Â°F")

/-- The `calculator` tool wrapped as a keyword-argument tool function. -/
def calculator_impl (inp : ToolInput) : Option String :=
  (lookupArg "expression" inp).map (fun expression => calculator expression)

/-- The `tool_functions` name-to-function mapping of `tool_using_agent`
(src/agent.py lines 106-109); an unknown name is a lookup failure. -/
def tool_functions (name : String) : Option (ToolInput → Option String) :=
  if name = "get_weather" then some get_weather_impl
  else if name = "calculator" then some calculator_impl
  else none

/-- Outcome of the fuel-indexed tool-dispatch loop: fuel exhaustion (the
source loop would still be running), an uncaught fault, or a returned
text. -/
inductive LoopResult where
  | outOfFuel
  | error
  | done (s : String)
deriving DecidableEq, Repr

/-- The tool-execution pass of `tool_using_agent` (src/agent.py lines
128-142): one tool-result record per tool-use block, in order, keyed by the
identifier of the block; a failed tool lookup or tool call aborts the whole
pass (an uncaught exception in the source). -/
def dispatchResults (fns : String → Option (ToolInput → Option String)) :
    List Block → Option (List ToolResult)
  | [] => some []
  | Block.text _ :: rest => dispatchResults fns rest
  | Block.toolUse name input id :: rest =>
    match fns name with
    | none => none
    | some f =>
      match f input with
      | none => none
      | some r => (dispatchResults fns rest).map (fun rs => ⟨id, r⟩ :: rs)

/-- The identifiers of the tool-use blocks of a response, in order. -/
def toolUseIds (bs : List Block) : List String :=
  bs.filterMap (fun b =>
    match b with
    | Block.toolUse _ _ id => some id
    | Block.text _ => none)

/-- The tool-dispatch loop of `tool_using_agent` (src/agent.py lines
117-150), indexed by fuel: while the stop reason is tool-use, execute every
requested tool, append the assistant turn and a user turn carrying the tool
results, and repeat; otherwise return the text of the first content
block. -/
def toolLoop (complete : List Message → Response)
    (fns : String → Option (ToolInput → Option String)) :
    Nat → List Message → LoopResult
  | 0, _ => LoopResult.outOfFuel
  | n + 1, messages =>
    if (complete messages).stop_reason = "tool_use" then
      match dispatchResults fns (complete messages).content with
      | none => LoopResult.error
      | some rs =>
        toolLoop complete fns n
          (messages
            ++ [⟨Role.assistant, Content.blocks (complete messages).content⟩,
                ⟨Role.user, Content.results rs⟩])
    else
      match (complete messages).content with
      | [] => LoopResult.error
      | b :: _ =>
        match blockText b with
        | none => LoopResult.error
        | some t => LoopResult.done t

/-- The fixed opening message of `tool_using_agent` (src/agent.py lines
112-115). -/
def initial_messages : List Message :=
  [⟨Role.user, Content.str
    "What\x27s the weather in Paris and what\x27s 15 * 23?"⟩]

/-- `tool_using_agent` (src/agent.py lines 58-150): run the tool-dispatch
loop with the fixed tool table from the fixed opening message. -/
def tool_using_agent (complete : List Message → Response) (fuel : Nat) :
    LoopResult :=
  toolLoop complete tool_functions fuel initial_messages

/-- A successful dispatch pass produces exactly one tool result per
tool-use block, in order, keyed by the identifier of the block it
answers. -/
theorem dispatchResults_ids (fns : String → Option (ToolInput → Option String)) :
    ∀ bs rs, dispatchResults fns bs = some rs →
      rs.map (fun r => r.tool_use_id) = toolUseIds bs := by
  intro bs
  induction bs with
  | nil =>
    intro rs h
    simp only [dispatchResults, Option.some.injEq] at h
    subst h
    rfl
  | cons b rest ih =>
    intro rs h
    cases b with
    | text s =>
      simp only [dispatchResults] at h
      rw [ih rs h]
      simp [toolUseIds]
    | toolUse name input id =>
      simp only [dispatchResults] at h
      cases hf : fns name with
      | none => rw [hf] at h; simp at h
      | some f =>
        rw [hf] at h
        dsimp only at h
        cases hfi : f input with
        | none => rw [hfi] at h; simp at h
        | some r =>
          rw [hfi] at h
          cases hd : dispatchResults fns rest with
          | none => rw [hd] at h; simp at h
          | some rs0 =>
            rw [hd] at h
            simp at h
            subst h
            simp only [List.map_cons, toolUseIds, List.filterMap_cons]
            rw [ih rs0 hd]
            rfl

/-- Claim C4: while the stop reason is tool-use the loop recurses with the
assistant turn and a user turn holding one tool result per tool-use block,
keyed by that block identifier; when the stop reason is not tool-use, the
loop returns the text of the first content block. -/
theorem toolLoop_step (complete : List Message → Response)
    (fns : String → Option (ToolInput → Option String)) (n : Nat)
    (msgs : List Message) :
    ((complete msgs).stop_reason = "tool_use" →
      ∀ rs, dispatchResults fns (complete msgs).content = some rs →
        toolLoop complete fns (n + 1) msgs
          = toolLoop complete fns n
              (msgs
                ++ [⟨Role.assistant, Content.blocks (complete msgs).content⟩,
                    ⟨Role.user, Content.results rs⟩])
          ∧ rs.map (fun r => r.tool_use_id) = toolUseIds (complete msgs).content
          ∧ rs.length = (toolUseIds (complete msgs).content).length)
    ∧ ((complete msgs).stop_reason ≠ "tool_use" →
        ∀ t tail, (complete msgs).content = Block.text t :: tail →
          toolLoop complete fns (n + 1) msgs = LoopResult.done t) := by
  constructor
  · intro hstop rs hd
    refine ⟨?_, dispatchResults_ids fns _ rs hd, ?_⟩
    · simp only [toolLoop]
      rw [if_pos hstop, hd]
    · have hids := dispatchResults_ids fns _ rs hd
      rw [← hids]
      simp
  · intro hstop t tail hc
    simp only [toolLoop]
    rw [if_neg hstop, hc]
    rfl

/-- A completion oracle that always requests the weather tool. -/
def weatherToolOracle : List Message → Response :=
  fun _ =>
    ⟨[Block.toolUse "get_weather" [("location", "Paris")] "tu1"], "tool_use"⟩

/-- A completion oracle that always ends the turn with a text block. -/
def endTurnTextOracle : List Message → Response :=
  fun _ => ⟨[Block.text "done"], "end_turn"⟩

/-- Witness for claim C4: one concrete tool-use step and one concrete
final-text step. -/
theorem toolLoop_step_witness :
    ([ToolResult.mk "tu1" "The weather in Paris is sunny, 72Â°F"].map
        (fun r => r.tool_use_id)
      = toolUseIds [Block.toolUse "get_weather" [("location", "Paris")] "tu1"])
    ∧ toolLoop endTurnTextOracle tool_functions 1 initial_messages
        = LoopResult.done "done" :=
  ⟨((toolLoop_step weatherToolOracle tool_functions 0 initial_messages).1
      rfl [ToolResult.mk "tu1" "The weather in Paris is sunny, 72Â°F"]
      (by decide)).2.1,
   (toolLoop_step endTurnTextOracle tool_functions 0 initial_messages).2
      (by decide) "done" [] rfl⟩

/-- Claim C6: the tool-dispatch loop has no iteration bound; under an
oracle whose every response has stop reason tool-use, the loop exhausts any
amount of fuel without returning, from every message list and in particular
from the fixed opening message of `tool_using_agent`. -/
theorem tool_using_agent_unbounded :
    (∀ n msgs, toolLoop weatherToolOracle tool_functions n msgs
        = LoopResult.outOfFuel)
      ∧ ∀ n, tool_using_agent weatherToolOracle n = LoopResult.outOfFuel := by
  have aux : ∀ n msgs, toolLoop weatherToolOracle tool_functions n msgs
      = LoopResult.outOfFuel := by
    intro n
    induction n with
    | zero => intro msgs; rfl
    | succ k ih =>
      intro msgs
      have step : toolLoop weatherToolOracle tool_functions (k + 1) msgs
          = toolLoop weatherToolOracle tool_functions k
              (msgs
                ++ [⟨Role.assistant, Content.blocks
                      [Block.toolUse "get_weather" [("location", "Paris")] "tu1"]⟩,
                    ⟨Role.user, Content.results
                      [ToolResult.mk "tu1"
                        "The weather in Paris is sunny, 72Â°F"]⟩]) := rfl
      rw [step]
      exact ih _
  exact ⟨aux, fun n => aux n initial_messages⟩

/-- The `next(...)` search of `AutonomousAgent.execute_task` (src/agent.py
lines 323-326): the text of the first content block that carries a text
field, `none` when no block does. -/
def firstTextOf (bs : List Block) : Option String :=
  (bs.filterMap blockText).head?

/-- The mocked tool execution of `AutonomousAgent.execute_task`
(src/agent.py lines 336-345): one fixed success string per tool-use block,
keyed by the identifier of the block. -/
def mockResults (bs : List Block) : List ToolResult :=
  bs.filterMap (fun b =>
    match b with
    | Block.toolUse name _ id =>
        some ⟨id, "Tool " ++ name ++ " executed successfully"⟩
    | Block.text _ => none)

/-- The task instruction that seeds the conversation history of
`AutonomousAgent.execute_task` (src/agent.py lines 306-311). -/
def taskPrompt (task : String) : String :=
  "Complete this task: " ++ task
    ++ "\n            \nYou can use available tools. Think step by step and use tools as needed."

/-- The seeded history of `AutonomousAgent.execute_task`: a single user
turn holding the task instruction. -/
def seedMsg (task : String) : Message :=
  ⟨Role.user, Content.str (taskPrompt task)⟩

/-- The history appended after a tool-use response of the autonomous loop
(src/agent.py lines 331-350): the assistant turn and a user turn carrying
the mocked tool results. -/
def autoNextHist (complete : List Message → Response)
    (hist : List Message) : List Message :=
  hist ++ [⟨Role.assistant, Content.blocks (complete hist).content⟩,
           ⟨Role.user, Content.results (mockResults (complete hist).content)⟩]

/-- The iteration loop of `AutonomousAgent.execute_task` (src/agent.py
lines 313-352), with the remaining iteration count as first argument.  The
second component of the result counts the completion requests issued.  A
stop reason that is neither end-turn nor tool-use falls through to the next
iteration with the history unchanged, as in the source. -/
def autoLoop (complete : List Message → Response) :
    Nat → List Message → Option String × Nat
  | 0, _ => (some "Max iterations reached", 0)
  | n + 1, hist =>
    if (complete hist).stop_reason = "end_turn" then
      (firstTextOf (complete hist).content, 1)
    else if (complete hist).stop_reason = "tool_use" then
      ((autoLoop complete n (autoNextHist complete hist)).1,
       (autoLoop complete n (autoNextHist complete hist)).2 + 1)
    else
      ((autoLoop complete n hist).1, (autoLoop complete n hist).2 + 1)

/-- `AutonomousAgent.execute_task` (src/agent.py lines 301-352): seed the
history with the task instruction and run up to `max_iterations`
iterations, also reporting how many completion requests were issued. -/
def execute_task (complete : List Message → Response) (task : String)
    (max_iterations : Nat) : Option String × Nat :=
  autoLoop complete max_iterations [seedMsg task]

/-- The autonomous loop issues at most as many completion requests as it
has remaining iterations, and returns the sentinel when no response ever
has stop reason end-turn. -/
theorem autoLoop_bound (complete : List Message → Response) :
    ∀ (n : Nat) (hist : List Message),
      (autoLoop complete n hist).2 ≤ n
        ∧ ((∀ h, (complete h).stop_reason ≠ "end_turn") →
            (autoLoop complete n hist).1 = some "Max iterations reached") := by
  intro n
  induction n with
  | zero => intro hist; exact ⟨Nat.le_refl 0, fun _ => rfl⟩
  | succ k ih =>
    intro hist
    by_cases hstop : (complete hist).stop_reason = "end_turn"
    · constructor
      · simp only [autoLoop]
        rw [if_pos hstop]
        omega
      · intro hne
        exact absurd hstop (hne hist)
    · by_cases htool : (complete hist).stop_reason = "tool_use"
      · constructor
        · simp only [autoLoop]
          rw [if_neg hstop, if_pos htool]
          have := (ih (autoNextHist complete hist)).1
          omega
        · intro hne
          simp only [autoLoop]
          rw [if_neg hstop, if_pos htool]
          exact (ih (autoNextHist complete hist)).2 hne
      · constructor
        · simp only [autoLoop]
          rw [if_neg hstop, if_neg htool]
          have := (ih hist).1
          omega
        · intro hne
          simp only [autoLoop]
          rw [if_neg hstop, if_neg htool]
          exact (ih hist).2 hne

/-- Claim C2: `execute_task` issues at most `max_iterations` completion
requests, and when no response has stop reason end-turn it returns the
sentinel string "Max iterations reached". -/
theorem execute_task_bounded (complete : List Message → Response)
    (task : String) (n : Nat) :
    (execute_task complete task n).2 ≤ n
      ∧ ((∀ h, (complete h).stop_reason ≠ "end_turn") →
          (execute_task complete task n).1 = some "Max iterations reached") :=
  autoLoop_bound complete n [seedMsg task]

/-- Witness for claim C2 under an oracle that always requests a tool. -/
theorem execute_task_bounded_witness :
    (execute_task weatherToolOracle "t" 2).2 ≤ 2
      ∧ (execute_task weatherToolOracle "t" 2).1
          = some "Max iterations reached" :=
  ⟨(execute_task_bounded weatherToolOracle "t" 2).1,
   (execute_task_bounded weatherToolOracle "t" 2).2
     (fun _ => by show ("tool_use" : String) ≠ "end_turn"; decide)⟩

/-- No block of an all-blockless-text response yields a text, so the
filter-map underlying `firstTextOf` is empty. -/
theorem filterMap_blockText_nil :
    ∀ bs : List Block, (∀ b ∈ bs, blockText b = none) →
      bs.filterMap blockText = [] := by
  intro bs
  induction bs with
  | nil => intro _; rfl
  | cons b rest ih =>
    intro h
    have hb : blockText b = none := h b (List.mem_cons_self b rest)
    simp only [List.filterMap_cons, hb]
    exact ih (fun x hx => h x (List.mem_cons_of_mem b hx))

/-- Claim C7: when the first response has stop reason end-turn,
`execute_task` returns the text of its first text-bearing content block,
and returns `none` when no content block carries a text field. -/
theorem execute_task_end_turn (complete : List Message → Response)
    (task : String) (n : Nat)
    (hstop : (complete [seedMsg task]).stop_reason = "end_turn") :
    (execute_task complete task (n + 1)).1
        = firstTextOf (complete [seedMsg task]).content
      ∧ ((∀ b ∈ (complete [seedMsg task]).content, blockText b = none) →
          (execute_task complete task (n + 1)).1 = none) := by
  constructor
  · simp only [execute_task, autoLoop]
    rw [if_pos hstop]
  · intro hall
    simp only [execute_task, autoLoop]
    rw [if_pos hstop]
    simp only [firstTextOf, filterMap_blockText_nil _ hall]
    rfl

/-- A completion oracle that ends the turn with a single tool-use block and
no text block. -/
def endTurnToolOnlyOracle : List Message → Response :=
  fun _ => ⟨[Block.toolUse "search_web" [("query", "x")] "tu9"], "end_turn"⟩

/-- Witness for claim C7: an end-turn response with no text block makes
`execute_task` return `none`. -/
theorem execute_task_end_turn_witness :
    (execute_task endTurnToolOnlyOracle "t" 1).1 = none
      ∧ (execute_task endTurnToolOnlyOracle "t" 1).1
          = firstTextOf (endTurnToolOnlyOracle [seedMsg "t"]).content :=
  ⟨(execute_task_end_turn endTurnToolOnlyOracle "t" 0 rfl).2 (by decide),
   (execute_task_end_turn endTurnToolOnlyOracle "t" 0 rfl).1⟩

/-- Claim C10: with a maximum iteration count of zero, `execute_task`
issues no completion request and returns the sentinel. -/
theorem execute_task_zero_iterations (complete : List Message → Response)
    (task : String) :
    execute_task complete task 0 = (some "Max iterations reached", 0) :=
  rfl
